import Mathlib

/-!
Verification development for the request-context utilities of kb-remix-utils.

The TypeScript sources embedded here are:
  - src/create-request-context/utils.ts   (parseForm, parseParams, parseQueryString, unwrapSchema)
  - src/create-request-context/factory.ts (createRequestContextFactory)
  - src/zod/index.ts                      (zodDiscriminatedEnabledUnion)

Modelling conventions:
  - JavaScript values flowing through the pipelines are the inductive type Val.
    Objects carry a numeric identity tag, so that reference identity
    (the same object, not a structural copy) is expressible: a function that
    returns its argument unchanged preserves the tag, while any code path that
    rebuilds an object allocates tag 0.
  - Asynchronous functions that may throw are embedded as Except Err results;
    awaiting a rejected promise is propagation of the error value.
  - Observable effects (reading the request body, invoking a custom form-data
    extractor, invoking an error hook, running a schema, unwrapping a schema
    option) are recorded in an explicit event trace, in execution order.
  - External collaborators are modelled at their documented interface:
    zod safeParse is an arbitrary function Val to Except ZodError Val that
    never throws; the react-hook-form get/set helpers are modelled as
    assoc-list lookup/update over opaque path keys (path nesting is internal
    to that collaborator and no claim depends on it); the WHATWG URL parser is
    modelled by storing the decoded query entries, in URL order, on the
    request.
-/

set_option autoImplicit false

namespace KbRemix

/-- A single form-data entry value: a string field, or a non-string value such
as an uploaded file blob (the pipelines only ever ask whether it is a string,
so the blob payload is irrelevant). -/
inductive FormVal where
  | fstr (s : String)
  | ffile (id : Nat)
  deriving DecidableEq, Repr

/-- The body of a request as a FormData object: the ordered multipart entries. -/
abbrev FormDataT := List (String × FormVal)

/-- A value stored at one path of a field-path object built by the form and
query-string pipelines: a single scalar string, or an ordered array of
strings. -/
inductive FieldVal where
  | fvStr (s : String)
  | fvArr (l : List String)
  deriving DecidableEq, Repr

/-- The field-path object under construction: an insertion-ordered mapping
from opaque path keys to field values (the react-hook-form get/set collaborator
is modelled at this interface). -/
abbrev FieldObj := List (String × FieldVal)

/-- A JavaScript value in the model. Objects carry an identity tag (first
component of vobj): code that returns an existing object keeps its tag, code
that allocates a fresh object uses tag 0. -/
inductive Val where
  | vundefined
  | vstr (s : String)
  | vnum (n : Int)
  | vbool (b : Bool)
  | vlist (l : List Val)
  | vobj (id : Nat) (fields : List (String × Val))
  deriving Repr

/-- The structured validation error produced by a schema (zod ZodError),
treated opaquely: an ordered list of issue descriptions. -/
structure ZodError where
  issues : List String
  deriving DecidableEq, Repr

/-- A thrown/rejected JavaScript error: an Error with a message, or an
arbitrary thrown value. -/
inductive Err where
  | emsg (msg : String)
  | ethrown (v : Val)
  deriving Repr

/-- Collaborator model of react-hook-form get with a default of undefined:
first binding of the key in the assoc object, if any. -/
def getKey (obj : FieldObj) (k : String) : Option FieldVal :=
  match obj with
  | [] => none
  | (k0, v) :: rest => if k0 = k then some v else getKey rest k

/-- Collaborator model of react-hook-form set: replace the value at an
existing key in place (keeping its position), or append a new binding. -/
def setKey (obj : FieldObj) (k : String) (v : FieldVal) : FieldObj :=
  match obj with
  | [] => [(k, v)]
  | (k0, v0) :: rest =>
    if k0 = k then (k0, v) :: rest else (k0, v0) :: setKey rest k v

/-- FormData.getAll: every value stored under the key, in entry order. -/
def getAll (form : FormDataT) (k : String) : List FormVal :=
  (form.filter (fun e => e.1 = k)).map (fun e => e.2)

/-- The string payloads of the entries that are strings, in order: models
values.filter(v => typeof v === a string) together with reading the strings
out of the surviving entries. -/
def stringValues (values : List FormVal) : List String :=
  match values with
  | [] => []
  | .fstr s :: rest => s :: stringValues rest
  | .ffile _ :: rest => stringValues rest

/-- One iteration of the parseForm body loop (utils.ts lines 34 to 47): for
the key at hand, collect all values, strip non-strings, skip the key when
nothing survives, otherwise set a scalar for a single value and the array
itself for several. -/
def formStep (form : FormDataT) (obj : FieldObj) (key : String) : FieldObj :=
  let values := stringValues (getAll form key)
  match values with
  | [] => obj
  | [v] => setKey obj key (.fvStr v)
  | v :: rest => setKey obj key (.fvArr (v :: rest))

/-- The object built by the parseForm loop: iterate over form.keys(), which
yields the key of every entry in entry order, duplicates included. -/
def buildFormObj (form : FormDataT) : FieldObj :=
  (form.map (fun e => e.1)).foldl (formStep form) []

/-- One iteration of the parseQueryString loop (utils.ts lines 111 to 122):
look the key up; push onto an existing array (in-place array mutation,
modelled as replacing the binding with the extended array), turn an existing
scalar into a two-element array, or set a fresh scalar. -/
def queryStep (obj : FieldObj) (entry : String × String) : FieldObj :=
  match getKey obj entry.1 with
  | some (.fvArr l) => setKey obj entry.1 (.fvArr (l ++ [entry.2]))
  | some (.fvStr s) => setKey obj entry.1 (.fvArr [s, entry.2])
  | none => setKey obj entry.1 (.fvStr entry.2)

/-- The object built by the parseQueryString loop over the query entries of
the request URL, in URL order. -/
def buildQueryObj (entries : List (String × String)) : FieldObj :=
  entries.foldl queryStep []

/-- A request, at the interface the pipelines consume: the query entries of
its URL (the WHATWG URL collaborator already applied), and the outcome of
awaiting request.formData(). -/
structure RequestT where
  url : List (String × String)
  body : Except Err FormDataT

/-- The minimum DataFunctionArgs: a request plus the path parameters mapping
(a Val object with string or undefined fields, carrying its identity tag). -/
structure DataFunctionArgs where
  request : RequestT
  params : Val

/-- A zod schema at the interface the pipelines consume: safeParse maps a
value to a typed result or a structured error, and never throws. -/
structure Schema where
  safeParse : Val → Except ZodError Val

/-- The fields of a field-path object as a plain JavaScript object value
(fresh allocation, tag 0), the value handed to safeParse. -/
def fieldObjVal (obj : FieldObj) : Val :=
  .vobj 0 (obj.map (fun e =>
    (e.1, match e.2 with
          | .fvStr s => Val.vstr s
          | .fvArr l => Val.vlist (l.map Val.vstr))))

/-- A schema option as supplied by the caller: absent, a schema value, or a
zero-argument thunk producing a schema or undefined. -/
inductive SchemaArg where
  | missing
  | schema (s : Schema)
  | thunk (f : Unit → Option Schema)

/-- utils.ts unwrapSchema: if the option is callable invoke it with no
arguments and return the result, otherwise return the option unchanged
(including undefined). -/
def unwrapSchema (schema : SchemaArg) : Option Schema :=
  match schema with
  | .missing => none
  | .schema s => some s
  | .thunk f => f ()

/-- A property of the caller-defined base context: an ordinary value, or a
lazily-computed getter that is evaluated only when the property is read. -/
inductive CtxProp where
  | value (v : Val)
  | getter (f : Unit → Val)

/-- The caller-defined base context produced by the configurator: an object
with an identity tag and insertion-ordered properties. -/
structure CtxObj where
  id : Nat
  props : List (String × CtxProp)

/-- Lookup in the property list underlying ctxGet. -/
def ctxGetProps (props : List (String × CtxProp)) (k : String) : Option CtxProp :=
  match props with
  | [] => none
  | (k0, v) :: rest => if k0 = k then some v else ctxGetProps rest k

/-- Property lookup on a context object. -/
def ctxGet (ctx : CtxObj) (k : String) : Option CtxProp :=
  ctxGetProps ctx.props k

/-- Update of the property list underlying ctxSet: assign the property in
place, keeping the position of an existing key. -/
def ctxSetProps (props : List (String × CtxProp)) (k : String) (v : Val) :
    List (String × CtxProp) :=
  match props with
  | [] => [(k, .value v)]
  | (k0, v0) :: rest =>
    if k0 = k then (k0, .value v) :: rest else (k0, v0) :: ctxSetProps rest k v

/-- Collaborator model of react-hook-form set applied to the context object
with a plain key: assign the property in place, keeping the identity tag. -/
def ctxSet (ctx : CtxObj) (k : String) (v : Val) : CtxObj :=
  ⟨ctx.id, ctxSetProps ctx.props k v⟩

/-- Which of the three pipelines an observable event belongs to. -/
inductive PipeName where
  | form
  | params
  | queryString
  deriving DecidableEq, Repr

/-- An observable effect of one builder call, in execution order. -/
inductive Event where
  | bodyRead
  | extractorInvoked (args : DataFunctionArgs) (ctx : CtxObj)
  | hookInvoked (p : PipeName) (e : ZodError) (ctx : CtxObj) (args : DataFunctionArgs)
  | validated (p : PipeName)
  | unwrapped (p : PipeName)

/-- An error hook: an async callback receiving the structured validation
error, the base context and the originating data args; it may itself throw. -/
abbrev HookFn := ZodError → CtxObj → DataFunctionArgs → Except Err Unit

/-- A custom form-data extractor: an async callback receiving the data args
and base context and producing a FormData collection; it may throw. -/
abbrev ExtractorFn := DataFunctionArgs → CtxObj → Except Err FormDataT

/-- The outcome of one pipeline (or builder) run: its event trace together
with its resolved value or rejection. -/
structure PipeOut (α : Type) where
  events : List Event
  result : Except Err α

/-- The fixed terminal error message of the form pipeline. -/
def formErrMsg : String :=
  "Several issues were found while trying to parse the form data."

/-- The fixed terminal error message of the params pipeline. -/
def paramsErrMsg : String :=
  "Several issues were found while trying to parse the params."

/-- The fixed terminal error message of the query-string pipeline. -/
def queryStringErrMsg : String :=
  "Several issues were found while trying to parse the query string."

/-- The shared failure tail of every pipeline (utils.ts lines 53 to 56, 83 to
86 and 128 to 131): await the hook when present — a hook rejection propagates
as is — then throw the fixed pipeline error. -/
def failTail (p : PipeName) (zerr : ZodError) (context : CtxObj)
    (dataArgs : DataFunctionArgs) (onParseError : Option HookFn)
    (fixedMsg : String) : List Event × Except Err Val :=
  match onParseError with
  | none => ([], .error (.emsg fixedMsg))
  | some h =>
    match h zerr context dataArgs with
    | .ok _ => ([.hookInvoked p zerr context dataArgs], .error (.emsg fixedMsg))
    | .error e => ([.hookInvoked p zerr context dataArgs], .error e)

/-- Lines 33 to 56 of utils.ts parseForm: the processing of an obtained
FormData collection — build the field-path object, validate, and return the
data or fail through the hook. Both branches of the form pipeline (custom
extractor or default body-reader) continue here. -/
def parseFormData (dataArgs : DataFunctionArgs) (schema : Schema)
    (context : CtxObj) (onParseError : Option HookFn)
    (form : FormDataT) : PipeOut Val :=
  let obj := buildFormObj form
  match schema.safeParse (fieldObjVal obj) with
  | .ok data => ⟨[.validated .form], .ok data⟩
  | .error zerr =>
    let tail := failTail .form zerr context dataArgs onParseError formErrMsg
    ⟨[.validated .form] ++ tail.1, tail.2⟩

/-- utils.ts parseForm: with a schema, obtain the FormData (from the custom
extractor when supplied, else from the request body) and continue with
parseFormData; with no schema, return undefined. -/
def parseForm (dataArgs : DataFunctionArgs) (formSchema : Option Schema)
    (context : CtxObj) (onParseError : Option HookFn := none)
    (formDataParser : Option ExtractorFn := none) : PipeOut Val :=
  match formSchema with
  | none => ⟨[], .ok .vundefined⟩
  | some schema =>
    let read : List Event × Except Err FormDataT :=
      match formDataParser with
      | some p => ([.extractorInvoked dataArgs context], p dataArgs context)
      | none => ([.bodyRead], dataArgs.request.body)
    match read.2 with
    | .error e => ⟨read.1, .error e⟩
    | .ok form =>
      let rest := parseFormData dataArgs schema context onParseError form
      ⟨read.1 ++ rest.events, rest.result⟩

/-- utils.ts parseParams: with a schema, validate dataArgs.params and return
the data or fail through the hook; with no schema, return dataArgs.params
itself. -/
def parseParams (dataArgs : DataFunctionArgs) (paramsSchema : Option Schema)
    (context : CtxObj) (onParseError : Option HookFn := none) : PipeOut Val :=
  match paramsSchema with
  | none => ⟨[], .ok dataArgs.params⟩
  | some schema =>
    match schema.safeParse dataArgs.params with
    | .ok data => ⟨[.validated .params], .ok data⟩
    | .error zerr =>
      let tail := failTail .params zerr context dataArgs onParseError paramsErrMsg
      ⟨[.validated .params] ++ tail.1, tail.2⟩

/-- utils.ts parseQueryString: with a schema, build the field-path object from
the query entries of the request URL, validate, and return the data or fail
through the hook; with no schema, return undefined. -/
def parseQueryString (dataArgs : DataFunctionArgs)
    (queryStringSchema : Option Schema) (context : CtxObj)
    (onParseError : Option HookFn := none) : PipeOut Val :=
  match queryStringSchema with
  | none => ⟨[], .ok .vundefined⟩
  | some schema =>
    let obj := buildQueryObj dataArgs.request.url
    match schema.safeParse (fieldObjVal obj) with
    | .ok data => ⟨[.validated .queryString], .ok data⟩
    | .error zerr =>
      let tail :=
        failTail .queryString zerr context dataArgs onParseError queryStringErrMsg
      ⟨[.validated .queryString] ++ tail.1, tail.2⟩

/-- The per-call options of the returned builder: the three optional schema
options and the optional custom form-data extractor (extra caller-defined
options are consumed only by the configurator, which is an arbitrary
function here). -/
structure RequestContextOptionsT where
  formSchema : SchemaArg := .missing
  paramsSchema : SchemaArg := .missing
  queryStringSchema : SchemaArg := .missing
  formDataParser : Option ExtractorFn := none

/-- The configurator: an async function of the data args and the per-call
options producing the caller-defined base context, or throwing. -/
abbrev ConfiguratorFn :=
  DataFunctionArgs → Option RequestContextOptionsT → Except Err CtxObj

/-- The record form of the factory options: the configurator plus the three
optional per-pipeline error hooks. -/
structure RequestContextConfiguratorOptions where
  configurator : ConfiguratorFn
  onFormError : Option HookFn := none
  onParamsError : Option HookFn := none
  onQueryStringError : Option HookFn := none

/-- The factory argument: a bare configurator function or the record form. -/
inductive RequestContextFactoryOptions where
  | fn (configurator : ConfiguratorFn)
  | opts (o : RequestContextConfiguratorOptions)

/-- The paramsSchema taken from possibly-absent per-call options: models the
optional chaining in unwrapSchema(options?.paramsSchema). -/
def optParamsSchema (options : Option RequestContextOptionsT) : SchemaArg :=
  match options with
  | none => .missing
  | some o => o.paramsSchema

/-- The queryStringSchema of possibly-absent per-call options. -/
def optQueryStringSchema (options : Option RequestContextOptionsT) : SchemaArg :=
  match options with
  | none => .missing
  | some o => o.queryStringSchema

/-- The formSchema of possibly-absent per-call options. -/
def optFormSchema (options : Option RequestContextOptionsT) : SchemaArg :=
  match options with
  | none => .missing
  | some o => o.formSchema

/-- The formDataParser of possibly-absent per-call options. -/
def optFormDataParser (options : Option RequestContextOptionsT) : Option ExtractorFn :=
  match options with
  | none => none
  | some o => o.formDataParser

/-- The factoryOptions normalization at the top of createRequestContextFactory
(factory.ts lines 22 to 27): a bare function becomes the record form, done
once at factory-construction time. -/
def normalizeFactoryOptions (configuratorOrOptions : RequestContextFactoryOptions) :
    RequestContextConfiguratorOptions :=
  match configuratorOrOptions with
  | .fn f => { configurator := f }
  | .opts o => o

/-- factory.ts createRequestContextFactory: normalize the argument to the
record form once, then return the builder. The builder awaits the
configurator, then evaluates the RequestContext object literal — awaiting
parseParams, parseQueryString and parseForm in that textual order, each
argument list unwrapping its schema option first — and finally assigns the
three results onto the configurator output via the react-hook-form set
collaborator, returning that same object. An await of a rejected pipeline
aborts the literal, so the remaining pipelines never start. -/
def createRequestContextFactory
    (configuratorOrOptions : RequestContextFactoryOptions) :
    DataFunctionArgs → Option RequestContextOptionsT → PipeOut CtxObj :=
  let factoryOptions : RequestContextConfiguratorOptions :=
    normalizeFactoryOptions configuratorOrOptions
  fun args options =>
    match factoryOptions.configurator args options with
    | .error e => ⟨[], .error e⟩
    | .ok customContext =>
      let pr := parseParams args (unwrapSchema (optParamsSchema options))
        customContext factoryOptions.onParamsError
      let pEvents := [Event.unwrapped .params] ++ pr.events
      match pr.result with
      | .error e => ⟨pEvents, .error e⟩
      | .ok pv =>
        let qr := parseQueryString args (unwrapSchema (optQueryStringSchema options))
          customContext factoryOptions.onQueryStringError
        let qEvents := pEvents ++ [Event.unwrapped .queryString] ++ qr.events
        match qr.result with
        | .error e => ⟨qEvents, .error e⟩
        | .ok qv =>
          let fr := parseForm args (unwrapSchema (optFormSchema options))
            customContext factoryOptions.onFormError (optFormDataParser options)
          let fEvents := qEvents ++ [Event.unwrapped .form] ++ fr.events
          match fr.result with
          | .error e => ⟨fEvents, .error e⟩
          | .ok fv =>
            let merged :=
              ctxSet (ctxSet (ctxSet customContext "form" fv) "params" pv)
                "queryString" qv
            ⟨fEvents, .ok merged⟩

/-- Lookup of a field of a plain object value. -/
def lookupField (fields : List (String × Val)) (k : String) : Option Val :=
  match fields with
  | [] => none
  | (k0, v) :: rest => if k0 = k then some v else lookupField rest k

/-- Assignment of a field of a plain object value: replace in place, keeping
the position of an existing key, or append (the object-spread override in
normalizeEnabled keeps the original position of the enabled key). -/
def setField (fields : List (String × Val)) (k : String) (v : Val) :
    List (String × Val) :=
  match fields with
  | [] => [(k, v)]
  | (k0, v0) :: rest =>
    if k0 = k then (k0, v) :: rest else (k0, v0) :: setField rest k v

/-- zod/index.ts objectHasEnabledProperty: the value is a non-null object
with an enabled property on it. -/
def objectHasEnabledProperty (val : Val) : Bool :=
  match val with
  | .vobj _ fields => (lookupField fields "enabled").isSome
  | _ => false

/-- The coercion applied to the enabled field inside the preprocess step of
zodDiscriminatedEnabledUnion: an actual boolean is kept, any other value is
compared strictly against the string true. -/
def coerceEnabled (e : Val) : Val :=
  match e with
  | .vbool b => .vbool b
  | .vstr s => .vbool (s = "true")
  | _ => .vbool false

/-- The preprocess function of zodDiscriminatedEnabledUnion: when the input
is an object carrying an enabled property, spread it and override enabled
with its coercion (a fresh object, same fields and order); otherwise replace
the whole input with an object whose only field is enabled false. -/
def normalizeEnabled (val : Val) : Val :=
  match val with
  | .vobj _ fields =>
    match lookupField fields "enabled" with
    | some e => .vobj 0 (setField fields "enabled" (coerceEnabled e))
    | none => .vobj 0 [("enabled", .vbool false)]
  | _ => .vobj 0 [("enabled", .vbool false)]

/-- The field handed to a required shape schema: the object field when
present, undefined when missing. -/
def fieldOrUndefined (fields : List (String × Val)) (k : String) : Val :=
  (lookupField fields k).getD .vundefined

/-- Collaborator model of z.object on the extra shape fields: run every shape
schema on its field, collecting the issues of all failing fields in shape
order, and return the parsed fields in shape order. -/
def parseShapeFields (shape : List (String × Schema))
    (fields : List (String × Val)) : Except ZodError (List (String × Val)) :=
  match shape with
  | [] => .ok []
  | (k, sch) :: rest =>
    match sch.safeParse (fieldOrUndefined fields k), parseShapeFields rest fields with
    | .ok v, .ok vs => .ok ((k, v) :: vs)
    | .error e1, .error e2 => .error ⟨e1.issues ++ e2.issues⟩
    | .error e1, .ok _ => .error e1
    | .ok _, .error e2 => .error e2

/-- Collaborator model of the two-branch z.discriminatedUnion on the enabled
discriminator, from the zod documentation: a non-object input is rejected;
the branch is selected by the enabled field; the enabled false branch strips
every other key; the enabled true branch requires the extra shape fields; an
enabled value matching neither literal is an invalid discriminator. -/
def discUnionEnabled (shape : List (String × Schema)) (v : Val) :
    Except ZodError Val :=
  match v with
  | .vobj _ fields =>
    match lookupField fields "enabled" with
    | some (.vbool false) => .ok (.vobj 0 [("enabled", .vbool false)])
    | some (.vbool true) =>
      match parseShapeFields shape fields with
      | .ok parsed => .ok (.vobj 0 (parsed ++ [("enabled", .vbool true)]))
      | .error e => .error e
    | _ => .error ⟨["invalid discriminator value for enabled"]⟩
  | _ => .error ⟨["expected an object"]⟩

/-- zod/index.ts zodDiscriminatedEnabledUnion: z.preprocess of the enabled
normalization in front of the discriminated union (z.preprocess runs its
function on the raw input and validates the result with the inner schema). -/
def zodDiscriminatedEnabledUnion (shape : List (String × Schema)) : Schema :=
  ⟨fun v => discUnionEnabled shape (normalizeEnabled v)⟩

/-- Following the wording of spec section 4.2, for comparison with the code:
the values supplied for one path by the ordered (path, value) pairs, in
first-seen order. -/
def specValuesAt (entries : List (String × String)) (k : String) : List String :=
  (entries.filter (fun e => e.1 = k)).map (fun e => e.2)

/-- Following the wording of spec section 4.2, for comparison with the code:
the claimed shape of one path of the built object — omitted with no eligible
value, a single scalar for exactly one, the ordered sequence for several. -/
def specCollapse (vs : List String) : Option FieldVal :=
  match vs with
  | [] => none
  | [v] => some (.fvStr v)
  | v :: rest => some (.fvArr (v :: rest))

/-- Following the wording of spec section 4.2: one merge step of the rule —
the first occurrence sets a scalar, the second turns the scalar into the
two-element sequence, later ones append. -/
def specCollapseStep (cur : Option FieldVal) (v : String) : Option FieldVal :=
  match cur with
  | none => some (.fvStr v)
  | some (.fvStr s) => some (.fvArr [s, v])
  | some (.fvArr l) => some (.fvArr (l ++ [v]))

/-! Helper lemmas about the assoc-object collaborators. -/

theorem getKey_setKey_self (obj : FieldObj) (k : String) (v : FieldVal) :
    getKey (setKey obj k v) k = some v := by
  induction obj with
  | nil => simp [setKey, getKey]
  | cons e rest ih =>
    obtain ⟨k0, v0⟩ := e
    by_cases h : k0 = k <;> simp [setKey, getKey, h, ih]

theorem getKey_setKey_ne (obj : FieldObj) (k k' : String) (v : FieldVal)
    (h : k' ≠ k) : getKey (setKey obj k v) k' = getKey obj k' := by
  have hne : ¬k = k' := fun hh => h hh.symm
  induction obj with
  | nil => simp [setKey, getKey, hne]
  | cons e rest ih =>
    obtain ⟨k0, v0⟩ := e
    by_cases h0 : k0 = k
    · subst h0
      simp [setKey, getKey, hne]
    · simp [setKey, getKey, h0, ih]

theorem ctxGetProps_ctxSetProps_self (props : List (String × CtxProp))
    (k : String) (v : Val) :
    ctxGetProps (ctxSetProps props k v) k = some (.value v) := by
  induction props with
  | nil => simp [ctxSetProps, ctxGetProps]
  | cons e rest ih =>
    obtain ⟨k0, v0⟩ := e
    by_cases h : k0 = k <;> simp [ctxSetProps, ctxGetProps, h, ih]

theorem ctxGetProps_ctxSetProps_ne (props : List (String × CtxProp))
    (k k' : String) (v : Val) (h : k' ≠ k) :
    ctxGetProps (ctxSetProps props k v) k' = ctxGetProps props k' := by
  have hne : ¬k = k' := fun hh => h hh.symm
  induction props with
  | nil => simp [ctxSetProps, ctxGetProps, hne]
  | cons e rest ih =>
    obtain ⟨k0, v0⟩ := e
    by_cases h0 : k0 = k
    · subst h0
      simp [ctxSetProps, ctxGetProps, hne]
    · simp [ctxSetProps, ctxGetProps, h0, ih]

theorem ctxGet_ctxSet_self (ctx : CtxObj) (k : String) (v : Val) :
    ctxGet (ctxSet ctx k v) k = some (.value v) :=
  ctxGetProps_ctxSetProps_self ctx.props k v

theorem ctxGet_ctxSet_ne (ctx : CtxObj) (k k' : String) (v : Val)
    (h : k' ≠ k) : ctxGet (ctxSet ctx k v) k' = ctxGet ctx k' :=
  ctxGetProps_ctxSetProps_ne ctx.props k k' v h

theorem ctxSet_id (ctx : CtxObj) (k : String) (v : Val) :
    (ctxSet ctx k v).id = ctx.id := rfl

/-! Characterization of the two field-path object builders. -/

theorem specValuesAt_cons (e : String × String) (rest : List (String × String))
    (k : String) :
    specValuesAt (e :: rest) k =
      if e.1 = k then e.2 :: specValuesAt rest k else specValuesAt rest k := by
  by_cases h : e.1 = k <;> simp [specValuesAt, h]

theorem getKey_queryStep (obj : FieldObj) (e : String × String) (k : String) :
    getKey (queryStep obj e) k =
      if e.1 = k then specCollapseStep (getKey obj k) e.2 else getKey obj k := by
  obtain ⟨ke, ve⟩ := e
  by_cases h : ke = k
  · subst h
    rcases hk : getKey obj ke with _ | fv
    · simp [queryStep, hk, specCollapseStep, getKey_setKey_self]
    · cases fv <;> simp [queryStep, hk, specCollapseStep, getKey_setKey_self]
  · have hne : k ≠ ke := fun hh => h hh.symm
    rcases hk : getKey obj ke with _ | fv
    · simp [queryStep, hk, h, getKey_setKey_ne _ _ _ _ hne]
    · cases fv <;> simp [queryStep, hk, h, getKey_setKey_ne _ _ _ _ hne]

theorem getKey_foldl_queryStep (entries : List (String × String))
    (obj : FieldObj) (k : String) :
    getKey (entries.foldl queryStep obj) k =
      (specValuesAt entries k).foldl specCollapseStep (getKey obj k) := by
  induction entries generalizing obj with
  | nil => simp [specValuesAt]
  | cons e rest ih =>
    rw [List.foldl_cons, ih, specValuesAt_cons]
    by_cases h : e.1 = k <;> simp [h, getKey_queryStep]

theorem foldl_specCollapseStep_arr (vs : List String) (l : List String) :
    vs.foldl specCollapseStep (some (.fvArr l)) = some (.fvArr (l ++ vs)) := by
  induction vs generalizing l with
  | nil => simp
  | cons v rest ih =>
    rw [List.foldl_cons]
    show rest.foldl specCollapseStep (some (.fvArr (l ++ [v]))) = _
    rw [ih]
    simp

theorem foldl_specCollapseStep_none (vs : List String) :
    vs.foldl specCollapseStep none = specCollapse vs := by
  cases vs with
  | nil => rfl
  | cons v rest =>
    cases rest with
    | nil => rfl
    | cons w rest2 =>
      show rest2.foldl specCollapseStep (some (.fvArr [v, w])) = _
      rw [foldl_specCollapseStep_arr]
      rfl

theorem getKey_buildQueryObj (entries : List (String × String)) (k : String) :
    getKey (buildQueryObj entries) k = specCollapse (specValuesAt entries k) := by
  rw [buildQueryObj, getKey_foldl_queryStep]
  show (specValuesAt entries k).foldl specCollapseStep none = _
  exact foldl_specCollapseStep_none _

theorem formStep_eq (form : FormDataT) (obj : FieldObj) (key : String) :
    formStep form obj key =
      match specCollapse (stringValues (getAll form key)) with
      | none => obj
      | some fv => setKey obj key fv := by
  rcases h : stringValues (getAll form key) with _ | ⟨v, _ | ⟨w, rest⟩⟩ <;>
    simp [formStep, h, specCollapse]

theorem getKey_formStep_ne (form : FormDataT) (obj : FieldObj) (key k : String)
    (h : k ≠ key) : getKey (formStep form obj key) k = getKey obj k := by
  rw [formStep_eq]
  cases specCollapse (stringValues (getAll form key)) with
  | none => rfl
  | some fv => exact getKey_setKey_ne _ _ _ _ h

theorem getKey_foldl_formStep (keys : List String) (form : FormDataT)
    (obj : FieldObj) (k : String) :
    getKey (keys.foldl (formStep form) obj) k =
      if k ∈ keys ∧ stringValues (getAll form k) ≠ [] then
        specCollapse (stringValues (getAll form k))
      else getKey obj k := by
  induction keys generalizing obj with
  | nil => simp
  | cons key rest ih =>
    rw [List.foldl_cons, ih]
    by_cases hk : key = k
    · subst hk
      rcases hv : stringValues (getAll form key) with _ | ⟨v, vs⟩
      · simp only [ne_eq, not_true_eq_false, and_false, if_false]
        rw [formStep_eq, hv]
        rfl
      · have hcons : (v :: vs : List String) ≠ [] := List.cons_ne_nil _ _
        by_cases hmem : key ∈ rest
        · rw [if_pos ⟨hmem, hcons⟩, if_pos ⟨List.mem_cons_self _ _, hcons⟩]
        · rw [if_neg (fun hc => hmem hc.1),
            if_pos ⟨List.mem_cons_self _ _, hcons⟩, formStep_eq, hv]
          cases vs with
          | nil => exact getKey_setKey_self _ _ _
          | cons w rest2 => exact getKey_setKey_self _ _ _
    · have hkk : k ≠ key := fun hh => hk hh.symm
      rw [getKey_formStep_ne _ _ _ _ hkk]
      have hiff : (k ∈ key :: rest ∧ stringValues (getAll form k) ≠ []) ↔
          (k ∈ rest ∧ stringValues (getAll form k) ≠ []) := by
        constructor
        · rintro ⟨hm, hv⟩
          rcases List.mem_cons.mp hm with h1 | h1
          · exact absurd h1 hkk
          · exact ⟨h1, hv⟩
        · rintro ⟨hm, hv⟩
          exact ⟨List.mem_cons_of_mem _ hm, hv⟩
      rw [if_congr hiff rfl rfl]

theorem getAll_eq_nil_of_not_mem (form : FormDataT) (k : String)
    (h : k ∉ form.map (fun e => e.1)) : getAll form k = [] := by
  induction form with
  | nil => rfl
  | cons e rest ih =>
    obtain ⟨k0, v0⟩ := e
    simp only [List.map_cons, List.mem_cons] at h
    push_neg at h
    have h0 : ¬(k0 = k) := fun hh => h.1 hh.symm
    have hrec : getAll rest k = [] := ih h.2
    simp [getAll, List.filter_cons, h0] at hrec ⊢
    exact hrec

theorem getKey_buildFormObj (form : FormDataT) (k : String) :
    getKey (buildFormObj form) k = specCollapse (stringValues (getAll form k)) := by
  rw [buildFormObj, getKey_foldl_formStep]
  by_cases hmem : k ∈ form.map (fun e => e.1)
  · by_cases hv : stringValues (getAll form k) = []
    · simp [hmem, hv, specCollapse, getKey]
    · simp [hmem, hv]
  · have hnil : getAll form k = [] := getAll_eq_nil_of_not_mem _ _ hmem
    simp [hmem, hnil, stringValues, specCollapse, getKey]

/-! Claim theorems. -/

/-- C6: for every ordered sequence of (path, value) pairs, the field-path
object builders of the query-string and form pipelines set a single scalar
string for a path seen once, and an ordered sequence holding the values of
the path in first-seen order for a path seen more than once; the form
builder first drops non-string values and omits entirely a path whose values
were all dropped. -/
theorem fieldPathBuilder_collapses_paths :
    (∀ (entries : List (String × String)) (k : String),
      getKey (buildQueryObj entries) k = specCollapse (specValuesAt entries k)) ∧
    (∀ (form : FormDataT) (k : String),
      getKey (buildFormObj form) k = specCollapse (stringValues (getAll form k))) :=
  ⟨getKey_buildQueryObj, getKey_buildFormObj⟩

/-- C10: a form schema option that unwraps to undefined makes the form
pipeline return undefined with no observable effect — the request body is
not read and a supplied custom extractor is not invoked — for every request,
hook and extractor, so the form result does not depend on them. -/
theorem parseForm_schema_unwraps_undefined (sArg : SchemaArg)
    (h : unwrapSchema sArg = none) :
    ∀ (args : DataFunctionArgs) (ctx : CtxObj) (hook : Option HookFn)
      (p : Option ExtractorFn),
      parseForm args (unwrapSchema sArg) ctx hook p = ⟨[], .ok .vundefined⟩ := by
  intro args ctx hook p
  rw [h]
  rfl

/-- Witness for C10: a thunk returning undefined, a request carrying a form
body, and a custom extractor that would return a different body. -/
theorem parseForm_schema_unwraps_undefined_witness :
    parseForm ⟨⟨[("q", "1")], .ok [("name", .fstr "Jimmy")]⟩, .vobj 1 []⟩
      (unwrapSchema (.thunk (fun _ => none))) ⟨0, []⟩ none
      (some (fun _ _ => .ok [])) = ⟨[], .ok .vundefined⟩ :=
  parseForm_schema_unwraps_undefined (.thunk (fun _ => none)) rfl _ _ _ _

/-- C5: when the configurator throws, the promise returned by the builder
rejects with that exact error unmodified, and the event trace is empty — no
schema option is unwrapped, no body is read, no validation is run and no
hook is invoked. -/
theorem configurator_error_propagates_unmodified
    (c : RequestContextFactoryOptions) (args : DataFunctionArgs)
    (options : Option RequestContextOptionsT) (e : Err)
    (h : (normalizeFactoryOptions c).configurator args options = .error e) :
    createRequestContextFactory c args options = ⟨[], .error e⟩ := by
  simp [createRequestContextFactory, h]

/-- Witness for C5: a configurator that throws while a params schema is
supplied. -/
theorem configurator_error_propagates_unmodified_witness :
    createRequestContextFactory (.fn (fun _ _ => .error (.emsg "boom")))
      ⟨⟨[], .ok []⟩, .vobj 1 []⟩
      (some { paramsSchema := .schema ⟨fun _ => .ok .vundefined⟩ })
      = ⟨[], .error (.emsg "boom")⟩ :=
  configurator_error_propagates_unmodified _ _ _ _ rfl

/-- C2: with no schema supplied for any pipeline, the built context maps form
to undefined, queryString to undefined and params to the raw path-parameter
object taken from the data args — the very value with its identity tag, not
a copy. -/
theorem no_schemas_default_context
    (c : RequestContextFactoryOptions) (args : DataFunctionArgs)
    (options : Option RequestContextOptionsT) (ctx0 : CtxObj)
    (hps : optParamsSchema options = .missing)
    (hqs : optQueryStringSchema options = .missing)
    (hfs : optFormSchema options = .missing)
    (hcfg : (normalizeFactoryOptions c).configurator args options = .ok ctx0) :
    ∃ ctx2, (createRequestContextFactory c args options).result = .ok ctx2 ∧
      ctxGet ctx2 "form" = some (.value .vundefined) ∧
      ctxGet ctx2 "queryString" = some (.value .vundefined) ∧
      ctxGet ctx2 "params" = some (.value args.params) := by
  refine ⟨ctxSet (ctxSet (ctxSet ctx0 "form" .vundefined) "params" args.params)
      "queryString" .vundefined, ?_, ?_, ?_, ?_⟩
  · simp [createRequestContextFactory, hcfg, hps, hqs, hfs, unwrapSchema,
      parseParams, parseQueryString, parseForm]
  · rw [ctxGet_ctxSet_ne _ _ _ _ (by decide), ctxGet_ctxSet_ne _ _ _ _ (by decide)]
    exact ctxGet_ctxSet_self _ _ _
  · exact ctxGet_ctxSet_self _ _ _
  · rw [ctxGet_ctxSet_ne _ _ _ _ (by decide)]
    exact ctxGet_ctxSet_self _ _ _

/-- Witness for C2: a configurator returning a context object and a request
whose router supplied one path parameter. -/
theorem no_schemas_default_context_witness :
    ∃ ctx2, (createRequestContextFactory
        (.fn (fun _ _ => .ok ⟨5, [("user", .value (.vstr "kb"))]⟩))
        ⟨⟨[], .ok []⟩, .vobj 9 [("id", .vstr "5")]⟩ none).result = .ok ctx2 ∧
      ctxGet ctx2 "form" = some (.value .vundefined) ∧
      ctxGet ctx2 "queryString" = some (.value .vundefined) ∧
      ctxGet ctx2 "params" = some (.value (.vobj 9 [("id", .vstr "5")])) :=
  no_schemas_default_context _ _ _ _ rfl rfl rfl rfl

/-- C3: whenever a schema rejects the built object, the pipeline raises an
error with exactly its fixed pipeline-specific message, and a supplied error
hook that completes normally is invoked exactly once before the raise, with
the structured validation error, the base context and the originating data
args — shown by the full event trace. The form conjuncts are stated on
parseFormData, the shared continuation that both form paths (custom
extractor or default body-reader) run. -/
theorem pipeline_failure_fixed_message_and_hook
    (args : DataFunctionArgs) (ctx : CtxObj) (s : Schema) (zerr : ZodError) :
    (∀ (h : HookFn) (form : FormDataT),
      s.safeParse (fieldObjVal (buildFormObj form)) = .error zerr →
      h zerr ctx args = .ok () →
      parseFormData args s ctx (some h) form =
        ⟨[.validated .form, .hookInvoked .form zerr ctx args],
          .error (.emsg formErrMsg)⟩) ∧
    (∀ form : FormDataT,
      s.safeParse (fieldObjVal (buildFormObj form)) = .error zerr →
      parseFormData args s ctx none form =
        ⟨[.validated .form], .error (.emsg formErrMsg)⟩) ∧
    (∀ h : HookFn,
      s.safeParse args.params = .error zerr →
      h zerr ctx args = .ok () →
      parseParams args (some s) ctx (some h) =
        ⟨[.validated .params, .hookInvoked .params zerr ctx args],
          .error (.emsg paramsErrMsg)⟩) ∧
    (s.safeParse args.params = .error zerr →
      parseParams args (some s) ctx none =
        ⟨[.validated .params], .error (.emsg paramsErrMsg)⟩) ∧
    (∀ h : HookFn,
      s.safeParse (fieldObjVal (buildQueryObj args.request.url)) = .error zerr →
      h zerr ctx args = .ok () →
      parseQueryString args (some s) ctx (some h) =
        ⟨[.validated .queryString, .hookInvoked .queryString zerr ctx args],
          .error (.emsg queryStringErrMsg)⟩) ∧
    (s.safeParse (fieldObjVal (buildQueryObj args.request.url)) = .error zerr →
      parseQueryString args (some s) ctx none =
        ⟨[.validated .queryString], .error (.emsg queryStringErrMsg)⟩) := by
  refine ⟨?_, ?_, ?_, ?_, ?_, ?_⟩ <;> intros <;>
    simp_all [parseFormData, parseParams, parseQueryString, failTail]

/-- Witness for C3: an always-rejecting schema, a hook that completes
normally, one concrete request for each pipeline. -/
theorem pipeline_failure_fixed_message_and_hook_witness :
    parseFormData ⟨⟨[("p", "1")], .ok []⟩, .vobj 2 []⟩
      ⟨fun _ => .error ⟨["bad"]⟩⟩ ⟨3, []⟩ (some (fun _ _ _ => .ok ())) [] =
      ⟨[.validated .form,
        .hookInvoked .form ⟨["bad"]⟩ ⟨3, []⟩ ⟨⟨[("p", "1")], .ok []⟩, .vobj 2 []⟩],
        .error (.emsg formErrMsg)⟩ ∧
    parseParams ⟨⟨[("p", "1")], .ok []⟩, .vobj 2 []⟩
      (some ⟨fun _ => .error ⟨["bad"]⟩⟩) ⟨3, []⟩ none =
      ⟨[.validated .params], .error (.emsg paramsErrMsg)⟩ :=
  ⟨(pipeline_failure_fixed_message_and_hook _ _ _ _).1 _ _ rfl rfl,
   (pipeline_failure_fixed_message_and_hook _ _ _ _).2.2.2.1 rfl⟩

/-- C4: when validation fails and the supplied error hook itself throws, the
error propagated out of the pipeline is the hook error verbatim and the
fixed pipeline-message error is never raised, in each of the three
pipelines. -/
theorem hook_error_overrides_fixed_message
    (args : DataFunctionArgs) (ctx : CtxObj) (s : Schema) (zerr : ZodError)
    (h : HookFn) (e : Err) :
    (∀ form : FormDataT,
      s.safeParse (fieldObjVal (buildFormObj form)) = .error zerr →
      h zerr ctx args = .error e →
      parseFormData args s ctx (some h) form =
        ⟨[.validated .form, .hookInvoked .form zerr ctx args], .error e⟩) ∧
    (s.safeParse args.params = .error zerr →
      h zerr ctx args = .error e →
      parseParams args (some s) ctx (some h) =
        ⟨[.validated .params, .hookInvoked .params zerr ctx args], .error e⟩) ∧
    (s.safeParse (fieldObjVal (buildQueryObj args.request.url)) = .error zerr →
      h zerr ctx args = .error e →
      parseQueryString args (some s) ctx (some h) =
        ⟨[.validated .queryString, .hookInvoked .queryString zerr ctx args],
          .error e⟩) := by
  refine ⟨?_, ?_, ?_⟩ <;> intros <;>
    simp_all [parseFormData, parseParams, parseQueryString, failTail]

/-- Witness for C4: an always-rejecting schema and a hook that throws a
custom error, as in the repository tests. -/
theorem hook_error_overrides_fixed_message_witness :
    parseFormData ⟨⟨[], .ok []⟩, .vobj 2 []⟩ ⟨fun _ => .error ⟨["bad"]⟩⟩
      ⟨3, []⟩ (some (fun _ _ _ => .error (.emsg "custom error"))) [] =
      ⟨[.validated .form,
        .hookInvoked .form ⟨["bad"]⟩ ⟨3, []⟩ ⟨⟨[], .ok []⟩, .vobj 2 []⟩],
        .error (.emsg "custom error")⟩ :=
  (hook_error_overrides_fixed_message _ _ _ _ _ _).1 _ rfl rfl

/-- The form-data continuation only ever emits its validation event and hook
events: no body read and no extractor invocation happen past the point where
the FormData collection was obtained. -/
theorem parseFormData_events_shapes (args : DataFunctionArgs) (s : Schema)
    (ctx : CtxObj) (hook : Option HookFn) (form : FormDataT) :
    ∀ ev ∈ (parseFormData args s ctx hook form).events,
      ev = .validated .form ∨ ∃ z c a, ev = .hookInvoked .form z c a := by
  intro ev hev
  simp only [parseFormData] at hev
  cases hp : s.safeParse (fieldObjVal (buildFormObj form)) with
  | ok d =>
    rw [hp] at hev
    simp only [List.mem_singleton] at hev
    exact .inl hev
  | error z =>
    rw [hp] at hev
    cases hook with
    | none =>
      simp only [failTail, List.append_nil, List.mem_singleton] at hev
      exact .inl hev
    | some h =>
      cases hh : h z ctx args with
      | ok u =>
        simp only [failTail, hh, List.mem_append, List.mem_singleton] at hev
        rcases hev with h1 | h1
        · exact .inl h1
        · exact .inr ⟨z, ctx, args, h1⟩
      | error e2 =>
        simp only [failTail, hh, List.mem_append, List.mem_singleton] at hev
        rcases hev with h1 | h1
        · exact .inl h1
        · exact .inr ⟨z, ctx, args, h1⟩

/-- C7: a supplied custom form-data extractor is invoked exactly once per
form pipeline run, receiving the data args and the base context — it is the
one extraction event there is, the default body-reader is never consulted —
and the collection it returns (or the error it throws) is exactly what the
pipeline continues with. -/
theorem custom_extractor_replaces_body_reader
    (args : DataFunctionArgs) (ctx : CtxObj) (s : Schema)
    (hook : Option HookFn) (p : ExtractorFn) :
    (∀ e : Err, p args ctx = .error e →
      parseForm args (some s) ctx hook (some p) =
        ⟨[.extractorInvoked args ctx], .error e⟩) ∧
    (∀ fd : FormDataT, p args ctx = .ok fd →
      parseForm args (some s) ctx hook (some p) =
        ⟨.extractorInvoked args ctx :: (parseFormData args s ctx hook fd).events,
          (parseFormData args s ctx hook fd).result⟩ ∧
      Event.bodyRead ∉ (parseForm args (some s) ctx hook (some p)).events ∧
      (∀ a c, Event.extractorInvoked a c ∉
        (parseFormData args s ctx hook fd).events)) := by
  constructor
  · intro e he
    simp [parseForm, he]
  · intro fd hfd
    have heq : parseForm args (some s) ctx hook (some p) =
        ⟨.extractorInvoked args ctx :: (parseFormData args s ctx hook fd).events,
          (parseFormData args s ctx hook fd).result⟩ := by
      simp [parseForm, hfd]
    refine ⟨heq, ?_, ?_⟩
    · rw [heq]
      intro hmem
      rcases List.mem_cons.mp hmem with h1 | h1
      · exact Event.noConfusion h1
      · rcases parseFormData_events_shapes args s ctx hook fd _ h1 with
          h2 | ⟨z, cc, aa, h2⟩ <;> exact Event.noConfusion h2
    · intro a c hmem
      rcases parseFormData_events_shapes args s ctx hook fd _ hmem with
        h2 | ⟨z, cc, aa, h2⟩ <;> exact Event.noConfusion h2

/-- Witness for C7: a throwing extractor and a succeeding extractor, each
with a request that carries a different default body. -/
theorem custom_extractor_replaces_body_reader_witness :
    (parseForm ⟨⟨[], .ok [("other", .fstr "x")]⟩, .vundefined⟩
        (some ⟨fun _ => .ok (.vstr "parsed")⟩) ⟨0, []⟩ none
        (some (fun _ _ => .error (.emsg "fail"))) =
      ⟨[.extractorInvoked ⟨⟨[], .ok [("other", .fstr "x")]⟩, .vundefined⟩ ⟨0, []⟩],
        .error (.emsg "fail")⟩) ∧
    (parseForm ⟨⟨[], .ok [("other", .fstr "x")]⟩, .vundefined⟩
        (some ⟨fun _ => .ok (.vstr "parsed")⟩) ⟨0, []⟩ none
        (some (fun _ _ => .ok [("name", .fstr "Jimmy")])) =
      ⟨.extractorInvoked ⟨⟨[], .ok [("other", .fstr "x")]⟩, .vundefined⟩ ⟨0, []⟩ ::
        (parseFormData ⟨⟨[], .ok [("other", .fstr "x")]⟩, .vundefined⟩
          ⟨fun _ => .ok (.vstr "parsed")⟩ ⟨0, []⟩ none
          [("name", .fstr "Jimmy")]).events,
        (parseFormData ⟨⟨[], .ok [("other", .fstr "x")]⟩, .vundefined⟩
          ⟨fun _ => .ok (.vstr "parsed")⟩ ⟨0, []⟩ none
          [("name", .fstr "Jimmy")]).result⟩ ∧
      Event.bodyRead ∉ (parseForm ⟨⟨[], .ok [("other", .fstr "x")]⟩, .vundefined⟩
        (some ⟨fun _ => .ok (.vstr "parsed")⟩) ⟨0, []⟩ none
        (some (fun _ _ => .ok [("name", .fstr "Jimmy")]))).events ∧
      (∀ a c, Event.extractorInvoked a c ∉
        (parseFormData ⟨⟨[], .ok [("other", .fstr "x")]⟩, .vundefined⟩
          ⟨fun _ => .ok (.vstr "parsed")⟩ ⟨0, []⟩ none
          [("name", .fstr "Jimmy")]).events)) :=
  ⟨(custom_extractor_replaces_body_reader _ _ _ _ _).1 _ rfl,
   (custom_extractor_replaces_body_reader _ _ _ _ _).2 _ rfl⟩

/-- C8: on success the builder merges by assigning exactly the keys form,
params and queryString on the configurator output object: the returned
context keeps that object identity tag (the same object, mutated in place,
is returned), every other property — including lazily-computed getters,
which stay unevaluated thunks — is untouched, and the three keys carry the
pipeline results. -/
theorem merge_mutates_base_context_in_place
    (c : RequestContextFactoryOptions) (args : DataFunctionArgs)
    (options : Option RequestContextOptionsT) (ctx0 : CtxObj) (pv qv fv : Val)
    (hcfg : (normalizeFactoryOptions c).configurator args options = .ok ctx0)
    (hp : (parseParams args (unwrapSchema (optParamsSchema options)) ctx0
        (normalizeFactoryOptions c).onParamsError).result = .ok pv)
    (hq : (parseQueryString args (unwrapSchema (optQueryStringSchema options)) ctx0
        (normalizeFactoryOptions c).onQueryStringError).result = .ok qv)
    (hf : (parseForm args (unwrapSchema (optFormSchema options)) ctx0
        (normalizeFactoryOptions c).onFormError
        (optFormDataParser options)).result = .ok fv) :
    ∃ ctx2, (createRequestContextFactory c args options).result = .ok ctx2 ∧
      ctx2.id = ctx0.id ∧
      (∀ k, k ≠ "form" → k ≠ "params" → k ≠ "queryString" →
        ctxGet ctx2 k = ctxGet ctx0 k) ∧
      (∀ k f, k ≠ "form" → k ≠ "params" → k ≠ "queryString" →
        ctxGet ctx0 k = some (.getter f) → ctxGet ctx2 k = some (.getter f)) ∧
      ctxGet ctx2 "form" = some (.value fv) ∧
      ctxGet ctx2 "params" = some (.value pv) ∧
      ctxGet ctx2 "queryString" = some (.value qv) := by
  have hpres : ∀ k, k ≠ "form" → k ≠ "params" → k ≠ "queryString" →
      ctxGet (ctxSet (ctxSet (ctxSet ctx0 "form" fv) "params" pv)
        "queryString" qv) k = ctxGet ctx0 k := by
    intro k h1 h2 h3
    rw [ctxGet_ctxSet_ne _ _ _ _ h3, ctxGet_ctxSet_ne _ _ _ _ h2,
      ctxGet_ctxSet_ne _ _ _ _ h1]
  refine ⟨ctxSet (ctxSet (ctxSet ctx0 "form" fv) "params" pv) "queryString" qv,
    ?_, rfl, hpres, ?_, ?_, ?_, ?_⟩
  · simp [createRequestContextFactory, hcfg, hp, hq, hf]
  · intro k f h1 h2 h3 hg
    rw [hpres k h1 h2 h3, hg]
  · rw [ctxGet_ctxSet_ne _ _ _ _ (by decide), ctxGet_ctxSet_ne _ _ _ _ (by decide)]
    exact ctxGet_ctxSet_self _ _ _
  · rw [ctxGet_ctxSet_ne _ _ _ _ (by decide)]
    exact ctxGet_ctxSet_self _ _ _
  · exact ctxGet_ctxSet_self _ _ _

/-- Witness for C8: a configurator whose output carries an eager property and
a lazy getter, no schemas supplied. -/
theorem merge_mutates_base_context_in_place_witness :
    ∃ ctx2, (createRequestContextFactory
        (.fn (fun _ _ => .ok ⟨7, [("user", .value (.vstr "kb")),
          ("lazy", .getter (fun _ => .vstr "expensive"))]⟩))
        ⟨⟨[], .ok []⟩, .vobj 9 [("id", .vstr "5")]⟩ none).result = .ok ctx2 ∧
      ctx2.id = 7 ∧
      (∀ k, k ≠ "form" → k ≠ "params" → k ≠ "queryString" →
        ctxGet ctx2 k = ctxGet ⟨7, [("user", .value (.vstr "kb")),
          ("lazy", .getter (fun _ => .vstr "expensive"))]⟩ k) ∧
      (∀ k f, k ≠ "form" → k ≠ "params" → k ≠ "queryString" →
        ctxGet ⟨7, [("user", .value (.vstr "kb")),
          ("lazy", .getter (fun _ => .vstr "expensive"))]⟩ k = some (.getter f) →
        ctxGet ctx2 k = some (.getter f)) ∧
      ctxGet ctx2 "form" = some (.value .vundefined) ∧
      ctxGet ctx2 "params" = some (.value (.vobj 9 [("id", .vstr "5")])) ∧
      ctxGet ctx2 "queryString" = some (.value .vundefined) :=
  merge_mutates_base_context_in_place
    (.fn (fun _ _ => .ok ⟨7, [("user", .value (.vstr "kb")),
      ("lazy", .getter (fun _ => .vstr "expensive"))]⟩))
    ⟨⟨[], .ok []⟩, .vobj 9 [("id", .vstr "5")]⟩ none
    ⟨7, [("user", .value (.vstr "kb")),
      ("lazy", .getter (fun _ => .vstr "expensive"))]⟩
    (.vobj 9 [("id", .vstr "5")]) .vundefined .vundefined rfl rfl rfl rfl

theorem lookupField_setField_self (fields : List (String × Val)) (k : String)
    (v : Val) : lookupField (setField fields k v) k = some v := by
  induction fields with
  | nil => simp [setField, lookupField]
  | cons e rest ih =>
    obtain ⟨k0, v0⟩ := e
    by_cases h : k0 = k <;> simp [setField, lookupField, h, ih]

theorem setField_self_of_lookup (fields : List (String × Val)) (k : String)
    (v : Val) (h : lookupField fields k = some v) : setField fields k v = fields := by
  induction fields with
  | nil => simp [lookupField] at h
  | cons e rest ih =>
    obtain ⟨k0, v0⟩ := e
    by_cases h0 : k0 = k
    · subst h0
      have h1 : v0 = v := by simpa [lookupField] using h
      subst h1
      simp [setField]
    · simp only [lookupField, h0, if_false] at h
      simp [setField, h0, ih h]

theorem discUnionEnabled_ignores_id (shape : List (String × Schema)) (i j : Nat)
    (fields : List (String × Val)) :
    discUnionEnabled shape (.vobj i fields) = discUnionEnabled shape (.vobj j fields) := rfl

/-- C9: the boolean-gated discriminated union normalizes the enabled flag to
a real boolean before discriminated validation: an input whose enabled field
is an actual boolean validates exactly as the plain discriminated union on
that input (kept as is); the string true selects the enabled-true branch
with the extra shape fields required; the string false validates as the
enabled-false variant. -/
theorem zodDiscriminatedEnabledUnion_normalizes_flag
    (shape : List (String × Schema)) (i : Nat) (fields : List (String × Val)) :
    (∀ b : Bool, lookupField fields "enabled" = some (.vbool b) →
      (zodDiscriminatedEnabledUnion shape).safeParse (.vobj i fields) =
        discUnionEnabled shape (.vobj i fields)) ∧
    (lookupField fields "enabled" = some (.vstr "true") →
      (zodDiscriminatedEnabledUnion shape).safeParse (.vobj i fields) =
        match parseShapeFields shape (setField fields "enabled" (.vbool true)) with
        | .ok parsed => .ok (.vobj 0 (parsed ++ [("enabled", .vbool true)]))
        | .error e => .error e) ∧
    (lookupField fields "enabled" = some (.vstr "false") →
      (zodDiscriminatedEnabledUnion shape).safeParse (.vobj i fields) =
        .ok (.vobj 0 [("enabled", .vbool false)])) := by
  refine ⟨?_, ?_, ?_⟩
  · intro b hb
    show discUnionEnabled shape (normalizeEnabled (.vobj i fields)) = _
    simp only [normalizeEnabled, hb, coerceEnabled]
    rw [setField_self_of_lookup _ _ _ hb]
    exact discUnionEnabled_ignores_id _ _ _ _
  · intro hb
    show discUnionEnabled shape (normalizeEnabled (.vobj i fields)) = _
    simp only [normalizeEnabled, hb, coerceEnabled]
    have htrue : (decide ("true" = "true") : Bool) = true := by decide
    simp only [htrue, decide_True]
    have hset : lookupField (setField fields "enabled" (.vbool true)) "enabled" =
        some (.vbool true) := lookupField_setField_self _ _ _
    simp only [discUnionEnabled, hset]
  · intro hb
    show discUnionEnabled shape (normalizeEnabled (.vobj i fields)) = _
    simp only [normalizeEnabled, hb, coerceEnabled]
    have hfalse : (decide ("false" = "true")) = false := by decide
    rw [hfalse]
    have hset : lookupField (setField fields "enabled" (.vbool false)) "enabled" =
        some (.vbool false) := lookupField_setField_self _ _ _
    simp only [discUnionEnabled, hset]

/-- Witness for C9: a one-field shape, an input submitting enabled as the
string true, and an input submitting enabled as the string false. -/
theorem zodDiscriminatedEnabledUnion_normalizes_flag_witness :
    ((zodDiscriminatedEnabledUnion [("name", ⟨fun v => .ok v⟩)]).safeParse
        (.vobj 4 [("enabled", .vstr "true"), ("name", .vstr "kb")]) =
      .ok (.vobj 0 [("name", .vstr "kb"), ("enabled", .vbool true)])) ∧
    ((zodDiscriminatedEnabledUnion [("name", ⟨fun v => .ok v⟩)]).safeParse
        (.vobj 4 [("enabled", .vstr "false"), ("name", .vstr "kb")]) =
      .ok (.vobj 0 [("enabled", .vbool false)])) :=
  ⟨((zodDiscriminatedEnabledUnion_normalizes_flag [("name", ⟨fun v => .ok v⟩)] 4
      [("enabled", .vstr "true"), ("name", .vstr "kb")]).2.1 rfl).trans (by rfl),
   (zodDiscriminatedEnabledUnion_normalizes_flag [("name", ⟨fun v => .ok v⟩)] 4
      [("enabled", .vstr "false"), ("name", .vstr "kb")]).2.2 rfl⟩

/-- Counterexample to C1 as stated: with schemas supplied for all three
pipelines and a params schema that rejects, the builder rejects with the
params pipeline error while the trace shows the query-string and form
pipelines never ran — their schemas were never unwrapped, no validation
event of theirs occurred and the body was never read — so a validation
failure in one pipeline does prevent the other pipelines from running. -/
theorem pipelines_not_independent_counterexample :
    createRequestContextFactory (.fn (fun _ _ => .ok ⟨1, []⟩))
      ⟨⟨[("q", "1")], .ok [("a", .fstr "x")]⟩, .vobj 2 []⟩
      (some { formSchema := .schema ⟨fun _ => .ok .vundefined⟩,
              paramsSchema := .schema ⟨fun _ => .error ⟨["bad"]⟩⟩,
              queryStringSchema := .schema ⟨fun _ => .ok .vundefined⟩ }) =
      ⟨[.unwrapped .params, .validated .params], .error (.emsg paramsErrMsg)⟩ ∧
    Event.bodyRead ∉ [Event.unwrapped .params, Event.validated .params] ∧
    Event.validated .queryString ∉
      [Event.unwrapped .params, Event.validated .params] ∧
    Event.validated .form ∉ [Event.unwrapped .params, Event.validated .params] ∧
    Event.unwrapped .queryString ∉
      [Event.unwrapped .params, Event.validated .params] ∧
    Event.unwrapped .form ∉ [Event.unwrapped .params, Event.validated .params] := by
  refine ⟨?_, ?_, ?_, ?_, ?_, ?_⟩
  · rfl
  all_goals simp

/-- C1 amended: the three pipelines are run sequentially in the order params,
query-string, form, each awaited in turn; the first pipeline failure
terminates the whole builder call and propagates outward once awaited, so
the pipelines after the failing one never run, while the pipelines before it
have already completed and their events remain in the trace. -/
theorem pipelines_sequential_short_circuit
    (c : RequestContextFactoryOptions) (args : DataFunctionArgs)
    (options : Option RequestContextOptionsT) (ctx0 : CtxObj) (e : Err)
    (hcfg : (normalizeFactoryOptions c).configurator args options = .ok ctx0) :
    ((parseParams args (unwrapSchema (optParamsSchema options)) ctx0
        (normalizeFactoryOptions c).onParamsError).result = .error e →
      createRequestContextFactory c args options =
        ⟨[.unwrapped .params] ++
          (parseParams args (unwrapSchema (optParamsSchema options)) ctx0
            (normalizeFactoryOptions c).onParamsError).events, .error e⟩) ∧
    (∀ pv, (parseParams args (unwrapSchema (optParamsSchema options)) ctx0
        (normalizeFactoryOptions c).onParamsError).result = .ok pv →
      (parseQueryString args (unwrapSchema (optQueryStringSchema options)) ctx0
        (normalizeFactoryOptions c).onQueryStringError).result = .error e →
      createRequestContextFactory c args options =
        ⟨[.unwrapped .params] ++
          (parseParams args (unwrapSchema (optParamsSchema options)) ctx0
            (normalizeFactoryOptions c).onParamsError).events ++
          [.unwrapped .queryString] ++
          (parseQueryString args (unwrapSchema (optQueryStringSchema options)) ctx0
            (normalizeFactoryOptions c).onQueryStringError).events, .error e⟩) ∧
    (∀ pv qv, (parseParams args (unwrapSchema (optParamsSchema options)) ctx0
        (normalizeFactoryOptions c).onParamsError).result = .ok pv →
      (parseQueryString args (unwrapSchema (optQueryStringSchema options)) ctx0
        (normalizeFactoryOptions c).onQueryStringError).result = .ok qv →
      (parseForm args (unwrapSchema (optFormSchema options)) ctx0
        (normalizeFactoryOptions c).onFormError
        (optFormDataParser options)).result = .error e →
      createRequestContextFactory c args options =
        ⟨[.unwrapped .params] ++
          (parseParams args (unwrapSchema (optParamsSchema options)) ctx0
            (normalizeFactoryOptions c).onParamsError).events ++
          [.unwrapped .queryString] ++
          (parseQueryString args (unwrapSchema (optQueryStringSchema options)) ctx0
            (normalizeFactoryOptions c).onQueryStringError).events ++
          [.unwrapped .form] ++
          (parseForm args (unwrapSchema (optFormSchema options)) ctx0
            (normalizeFactoryOptions c).onFormError
            (optFormDataParser options)).events, .error e⟩) := by
  refine ⟨?_, ?_, ?_⟩
  · intro hp
    simp [createRequestContextFactory, hcfg, hp]
  · intro pv hp hq
    simp [createRequestContextFactory, hcfg, hp, hq]
  · intro pv qv hp hq hf
    simp [createRequestContextFactory, hcfg, hp, hq, hf]

/-- Witness for the amended C1: a failing params schema short-circuits the
call, and with passing params and query-string schemas a failing form schema
fails the call only after both ran. -/
theorem pipelines_sequential_short_circuit_witness :
    (createRequestContextFactory (.fn (fun _ _ => .ok ⟨1, []⟩))
        ⟨⟨[("q", "1")], .ok []⟩, .vobj 2 []⟩
        (some { formSchema := .schema ⟨fun _ => .ok .vundefined⟩,
                paramsSchema := .schema ⟨fun _ => .error ⟨["bad"]⟩⟩,
                queryStringSchema := .schema ⟨fun _ => .ok .vundefined⟩ }) =
      ⟨[.unwrapped .params] ++ [.validated .params],
        .error (.emsg paramsErrMsg)⟩) ∧
    (createRequestContextFactory (.fn (fun _ _ => .ok ⟨1, []⟩))
        ⟨⟨[("q", "1")], .ok []⟩, .vobj 2 []⟩
        (some { formSchema := .schema ⟨fun _ => .error ⟨["bad"]⟩⟩,
                paramsSchema := .schema ⟨fun _ => .ok .vundefined⟩,
                queryStringSchema := .schema ⟨fun _ => .ok .vundefined⟩ }) =
      ⟨[.unwrapped .params] ++ [.validated .params] ++
          [.unwrapped .queryString] ++ [.validated .queryString] ++
          [.unwrapped .form] ++ [.bodyRead, .validated .form],
        .error (.emsg formErrMsg)⟩) := by
  constructor
  · exact (pipelines_sequential_short_circuit
      (.fn (fun _ _ => .ok ⟨1, []⟩)) ⟨⟨[("q", "1")], .ok []⟩, .vobj 2 []⟩
      (some { formSchema := .schema ⟨fun _ => .ok .vundefined⟩,
              paramsSchema := .schema ⟨fun _ => .error ⟨["bad"]⟩⟩,
              queryStringSchema := .schema ⟨fun _ => .ok .vundefined⟩ })
      ⟨1, []⟩ (.emsg paramsErrMsg) rfl).1 rfl
  · exact (pipelines_sequential_short_circuit
      (.fn (fun _ _ => .ok ⟨1, []⟩)) ⟨⟨[("q", "1")], .ok []⟩, .vobj 2 []⟩
      (some { formSchema := .schema ⟨fun _ => .error ⟨["bad"]⟩⟩,
              paramsSchema := .schema ⟨fun _ => .ok .vundefined⟩,
              queryStringSchema := .schema ⟨fun _ => .ok .vundefined⟩ })
      ⟨1, []⟩ (.emsg formErrMsg) rfl).2.2 .vundefined .vundefined rfl rfl rfl

end KbRemix
